import Mathlib

/-!
Verification of the `callmanager` package (agentplexus/agentcall).

The Go code orchestrates voice calls: a `Manager` owns a registry of active
`CallState` sessions and exposes InitiateCall / ContinueCall / SpeakToUser /
EndCall.  External collaborators (the signaling backend, the TTS stream, the
STT event stream, the audio transport, the wall clock) are modelled as
explicit environment parameters: each operation is a pure function of the
manager state, its arguments and the environment behaviour it observes.
Timestamps are abstract `Nat` ticks supplied by the environment.
-/

/-- One conversation turn (Go struct `ConversationTurn`): role is
"assistant" or "user". -/
structure ConversationTurn where
  role : String
  content : String
  timestamp : Nat
deriving DecidableEq

/-- The per-call session state (Go struct `CallState`).  The Go field
`Call callsystem.Call` is an external handle; its observable behaviour
(status polling, hangup results, transport availability) is supplied by
environment records of the operations that use it. -/
structure CallState where
  id : String
  startTime : Nat
  conversation : List ConversationTurn
  lastUserMessage : String
deriving DecidableEq

/-- Go `CallState.AddTurn`: append a turn stamped with the current time and
cache the text in `LastUserMessage` when the speaker is the user. -/
def CallState.addTurn (cs : CallState) (role content : String) (now : Nat) : CallState :=
  { cs with
    conversation := cs.conversation ++ [⟨role, content, now⟩],
    lastUserMessage := if role = "user" then content else cs.lastUserMessage }

/-- One chunk of the streaming TTS synthesis (Go `tts` stream element):
an optional error, an audio payload and a finality flag. -/
structure TtsChunk where
  chunkError : Option String
  audio : List Nat
  isFinal : Bool
deriving DecidableEq

/-- Environment observed by one `speak` call: whether the call transport is
available, the result of `SynthesizeStream`, the chunk stream, and the
outcome of each successive `audioIn.Write` (indexed by write count). -/
structure SpeakEnv where
  transportAvailable : Bool
  synthesisError : Option String
  chunks : List TtsChunk
  writeError : List (Option String)
deriving DecidableEq

/-- The chunk-delivery loop of Go `Manager.speak`: a chunk error aborts,
non-empty audio is written (the k-th write may fail), and a final chunk
stops the loop.  Returns the error `speak` would return, `none` on success. -/
def deliverChunks (writeError : List (Option String)) : List TtsChunk → Nat → Option String
  | [], _ => none
  | c :: rest, k =>
    match c.chunkError with
    | some e => some ("TTS stream error: " ++ e)
    | none =>
      if c.audio.length > 0 then
        match writeError.getD k none with
        | some e => some ("failed to write audio: " ++ e)
        | none => if c.isFinal = true then none else deliverChunks writeError rest (k + 1)
      else
        if c.isFinal = true then none else deliverChunks writeError rest k

/-- Go `Manager.speak`: records the assistant turn first, then checks the
transport, starts synthesis and streams the chunks.  Returns the updated
session and the error, `none` on success. -/
def speak (st : CallState) (message : String) (now : Nat) (env : SpeakEnv) :
    CallState × Option String :=
  let st1 := st.addTurn "assistant" message now
  if env.transportAvailable = false then
    (st1, some "no transport connection available")
  else
    match env.synthesisError with
    | some e => (st1, some ("TTS synthesis failed: " ++ e))
    | none => (st1, deliverChunks env.writeError env.chunks 0)


/-- One streaming recognition event (Go `stt` event): an optional error, a
transcript fragment, and a finality flag. -/
structure SttEvent where
  eventError : Option String
  transcript : String
  isFinal : Bool
deriving DecidableEq

/-- How a run of the Go `listen` select-loop ends when no event resolves it:
the event channel closes, the timer fires, or the caller context is
cancelled (carrying `ctx.Err()`). -/
inductive ListenEnd where
  | streamClosed : ListenEnd
  | timeout : ListenEnd
  | ctxDone : String → ListenEnd
deriving DecidableEq

/-- Environment observed by one `listen` call: transport availability, the
result of `TranscribeStream`, the recognition events delivered before the
loop ends, and how it ends.  The audio-forwarding goroutine only feeds the
recognizer and has no observable effect on the session, so it is not
modelled. -/
structure ListenEnv where
  transportAvailable : Bool
  startError : Option String
  events : List SttEvent
  ending : ListenEnd
deriving DecidableEq

/-- The timer / closed-channel exits of Go `listen`: append a user turn when
the candidate transcript is non-empty, return it with no error. -/
def resolveCandidate (now : Nat) (st : CallState) (transcript : String) :
    CallState × String × Option String :=
  if transcript ≠ "" then (st.addTurn "user" transcript now, transcript, none)
  else (st, transcript, none)

/-- The event loop of Go `listen`, with `transcript` the running candidate:
an event error aborts with the partial transcript; a final event with a
non-empty transcript appends a user turn and resolves; any other event
updates the candidate when its transcript is non-empty; when the delivered
events run out the loop ends per `ending`. -/
def listenLoop (now : Nat) (st : CallState) (transcript : String) :
    List SttEvent → ListenEnd → CallState × String × Option String
  | [], .streamClosed => resolveCandidate now st transcript
  | [], .timeout => resolveCandidate now st transcript
  | [], .ctxDone e => (st, transcript, some e)
  | ev :: rest, ending =>
    match ev.eventError with
    | some e => (st, transcript, some e)
    | none =>
      if ev.isFinal = true ∧ ev.transcript ≠ "" then
        (st.addTurn "user" ev.transcript now, ev.transcript, none)
      else
        listenLoop now st (if ev.transcript ≠ "" then ev.transcript else transcript) rest ending

/-- Go `Manager.listen`: checks the transport, starts the transcription
stream, then runs the event loop with an empty initial candidate.  Returns
the updated session, the resolved transcript, and the error if any.  (The
manager itself only contributes configuration, so it is not a parameter.) -/
def Manager.listen (st : CallState) (now : Nat) (env : ListenEnv) :
    CallState × String × Option String :=
  if env.transportAvailable = false then
    (st, "", some "no transport connection available")
  else
    match env.startError with
    | some e => (st, "", some ("failed to start transcription: " ++ e))
    | none => listenLoop now st "" env.events env.ending

/-- Go `Manager.speakAndListen`: speak, then listen; a listen error is
wrapped as in the source. -/
def speakAndListen (st : CallState) (message : String) (now : Nat)
    (senv : SpeakEnv) (lenv : ListenEnv) : CallState × String × Option String :=
  match speak st message now senv with
  | (st1, some e) => (st1, "", some e)
  | (st1, none) =>
    match Manager.listen st1 now lenv with
    | (st2, _, some e) => (st2, "", some ("failed to listen: " ++ e))
    | (st2, response, none) => (st2, response, none)

/-- The call statuses of the signaling backend (`callsystem.Status`). -/
inductive CallStatus where
  | dialing : CallStatus
  | ringing : CallStatus
  | answered : CallStatus
  | ended : CallStatus
  | failed : CallStatus
  | busy : CallStatus
  | noAnswer : CallStatus
deriving DecidableEq

/-- Go `Manager.waitForAnswer`: poll `call.Status()` every 500 ms until the
30 s deadline.  Each list entry is one poll iteration before the deadline:
whether the caller context was already cancelled, and the observed status.
An exhausted list is the deadline expiring. -/
def waitForAnswer : List (Bool × CallStatus) → Bool
  | [] => false
  | (ctxDone, status) :: rest =>
    if ctxDone = true then false
    else if status = .answered then true
    else if status = .ended ∨ status = .failed ∨ status = .busy ∨ status = .noAnswer then false
    else waitForAnswer rest

/-- The decimal digit characters used by `fmt.Sprintf` verb `%d`. -/
def digitChar (d : Nat) : Char :=
  if d = 0 then Char.ofNat 48 else if d = 1 then Char.ofNat 49
  else if d = 2 then Char.ofNat 50 else if d = 3 then Char.ofNat 51
  else if d = 4 then Char.ofNat 52 else if d = 5 then Char.ofNat 53
  else if d = 6 then Char.ofNat 54 else if d = 7 then Char.ofNat 55
  else if d = 8 then Char.ofNat 56 else Char.ofNat 57

/-- Fuel-driven decimal rendering; the fuel only bounds the recursion depth
and `natDecChars` always supplies enough of it. -/
def natDecCharsAux : Nat → Nat → List Char
  | 0, n => [digitChar n]
  | fuel + 1, n =>
    if n < 10 then [digitChar n]
    else natDecCharsAux fuel (n / 10) ++ [digitChar (n % 10)]

/-- Decimal rendering of a natural number, as `fmt.Sprintf` verb `%d`
produces it (counter and Unix timestamp are non-negative). -/
def natDecChars (n : Nat) : List Char :=
  natDecCharsAux n n

/-- The string `fmt.Sprintf("call-%d-%d", counter, timestamp)` built by
Go `generateCallID`. -/
def mkCallID (counter timestamp : Nat) : String :=
  String.mk (('c' :: 'a' :: 'l' :: 'l' :: [Char.ofNat 45])
    ++ natDecChars counter ++ Char.ofNat 45 :: natDecChars timestamp)


/-- The manager (Go struct `Manager`).  `initialized` models whether
`Initialize` has set `callSystem` (nil check in the source); the registry
map is an association list with Go-map semantics; `callCounter` is the
per-process id counter. -/
structure Manager where
  initialized : Bool
  calls : List (String × CallState)
  callCounter : Nat
deriving DecidableEq

/-- Registry filter predicate: keep entries whose key differs from `callID`. -/
def keyNe (callID : String) (p : String × CallState) : Bool :=
  ¬ p.1 = callID

/-- Lookup in the registry association list (Go `m.calls[callID]`). -/
def lookupCall : List (String × CallState) → String → Option CallState
  | [], _ => none
  | (k, v) :: rest, callID => if k = callID then some v else lookupCall rest callID

/-- Go `Manager.getCall` (and the exported `GetCall`). -/
def Manager.getCall (m : Manager) (callID : String) : Option CallState :=
  lookupCall m.calls callID

/-- Go map assignment `m.calls[callID] = state`: at most one entry per key. -/
def Manager.storeCall (m : Manager) (callID : String) (st : CallState) : Manager :=
  { m with calls := (callID, st) :: m.calls.filter (keyNe callID) }

/-- Go `Manager.removeCall`: `delete(m.calls, callID)`. -/
def Manager.removeCall (m : Manager) (callID : String) : Manager :=
  { m with calls := m.calls.filter (keyNe callID) }

/-- Go `Manager.generateCallID`: increment the counter under its lock and
format `call-<counter>-<unix-timestamp>`. -/
def Manager.generateCallID (m : Manager) (nowUnix : Nat) : Manager × String :=
  ({ m with callCounter := m.callCounter + 1 }, mkCallID (m.callCounter + 1) nowUnix)


/-- Environment observed by one `InitiateCall`: the result of `MakeCall`,
the Unix timestamp read by `generateCallID`, the tick at session creation,
the answer-wait poll observations, and the speak/listen environments of the
post-answer phase. -/
structure InitiateEnv where
  makeCallError : Option String
  nowUnix : Nat
  now : Nat
  answerObs : List (Bool × CallStatus)
  speakEnv : SpeakEnv
  listenEnv : ListenEnv
deriving DecidableEq

/-- What one `InitiateCall` produces: the final manager, the returned
session pointer (`*CallState`), the returned transcript, the returned
error, and whether `call.Hangup` was invoked inside `InitiateCall` (the
best-effort hangup of the non-answer path, whose own result is discarded). -/
structure InitiateOutcome where
  mgr : Manager
  stOut : Option CallState
  response : String
  callError : Option String
  hungUp : Bool
deriving DecidableEq

/-- Go `Manager.InitiateCall`: nil-check of `callSystem`, `MakeCall`,
generate an id, register the fresh session, wait for answer (on non-answer:
best-effort hangup, evict, fail), then `speakAndListen` (its error is
surfaced while the session stays registered). -/
def Manager.initiateCall (m : Manager) (message : String) (env : InitiateEnv) :
    InitiateOutcome :=
  if m.initialized = false then
    ⟨m, none, "", some "call manager not initialized; call Initialize() first", false⟩
  else
    match env.makeCallError with
    | some e => ⟨m, none, "", some ("failed to make call: " ++ e), false⟩
    | none =>
      let m1 := (m.generateCallID env.nowUnix).1
      let callID := (m.generateCallID env.nowUnix).2
      let st : CallState := ⟨callID, env.now, [], ""⟩
      let m2 := m1.storeCall callID st
      if waitForAnswer env.answerObs = false then
        ⟨m2.removeCall callID, none, "", some "call not answered", true⟩
      else
        match speakAndListen st message env.now env.speakEnv env.listenEnv with
        | (st1, _, some e) =>
          ⟨m2.storeCall callID st1, some st1, "", some ("failed to speak: " ++ e), false⟩
        | (st1, response, none) =>
          ⟨m2.storeCall callID st1, some st1, response, none, false⟩

/-- Go `Manager.ContinueCall`: look up the session, `speakAndListen`, wrap
a failure as in the source. -/
def Manager.continueCall (m : Manager) (callID message : String) (now : Nat)
    (senv : SpeakEnv) (lenv : ListenEnv) : Manager × String × Option String :=
  match m.getCall callID with
  | none => (m, "", some ("call not found: " ++ callID))
  | some st =>
    match speakAndListen st message now senv lenv with
    | (st1, _, some e) => (m.storeCall callID st1, "", some ("failed to continue call: " ++ e))
    | (st1, response, none) => (m.storeCall callID st1, response, none)

/-- Go `Manager.SpeakToUser`: look up the session, `speak` only. -/
def Manager.speakToUser (m : Manager) (callID message : String) (now : Nat)
    (senv : SpeakEnv) : Manager × Option String :=
  match m.getCall callID with
  | none => (m, some ("call not found: " ++ callID))
  | some st =>
    match speak st message now senv with
    | (st1, some e) => (m.storeCall callID st1, some ("failed to speak: " ++ e))
    | (st1, none) => (m.storeCall callID st1, none)

/-- Environment observed by one `EndCall`: the speak environment of the
optional final message, the current tick, and the result of
`state.Call.Hangup`. -/
structure EndEnv where
  speakEnv : SpeakEnv
  now : Nat
  hangupError : Option String
deriving DecidableEq

/-- Go `Manager.EndCall`: look up the session; if a final message is given,
speak it best-effort (its error is discarded); compute the duration; hang
up — on hangup error return it at once (the source returns before
`removeCall`); otherwise remove the session. -/
def Manager.endCall (m : Manager) (callID message : String) (env : EndEnv) :
    Manager × Nat × Option String :=
  match m.getCall callID with
  | none => (m, 0, some ("call not found: " ++ callID))
  | some st =>
    let st1 := if message ≠ "" then (speak st message env.now env.speakEnv).1 else st
    let m1 := m.storeCall callID st1
    let duration := env.now - st1.startTime
    match env.hangupError with
    | some e => (m1, duration, some ("failed to hangup: " ++ e))
    | none => (m1.removeCall callID, duration, none)

/-- A sequence of `AddTurn` calls on one session, in call order. -/
def addTurns (cs : CallState) : List (String × String × Nat) → CallState
  | [] => cs
  | (r, c, t) :: rest => addTurns (cs.addTurn r c t) rest

/-- The ids produced by successive `generateCallID` invocations, one per
supplied timestamp, threading the manager through. -/
def Manager.genIDs (m : Manager) : List Nat → List String
  | [] => []
  | t :: ts => (m.generateCallID t).2 :: ((m.generateCallID t).1.genIDs ts)

/-- Value of a decimal digit string (proof device for id uniqueness). -/
def decVal (l : List Char) : Nat :=
  l.foldl (fun a c => a * 10 + (c.toNat - 48)) 0


/-! Helper lemmas about the registry. -/

lemma keyNe_false (callID : String) (p : String × CallState) (h : p.1 = callID) :
    keyNe callID p = false := by
  simp [keyNe, h]

lemma keyNe_true (callID : String) (p : String × CallState) (h : ¬ p.1 = callID) :
    keyNe callID p = true := by
  simp [keyNe, h]

lemma lookupCall_filter_self (l : List (String × CallState)) (callID : String) :
    lookupCall (l.filter (keyNe callID)) callID = none := by
  induction l with
  | nil => rfl
  | cons p rest ih =>
    by_cases hk : p.1 = callID
    · rw [List.filter_cons, keyNe_false callID p hk]
      simpa using ih
    · rw [List.filter_cons, keyNe_true callID p hk]
      simp only [if_pos rfl]
      obtain ⟨k, v⟩ := p
      simpa [lookupCall, hk] using ih

lemma getCall_storeCall_self (m : Manager) (callID : String) (st : CallState) :
    (m.storeCall callID st).getCall callID = some st := by
  simp [Manager.storeCall, Manager.getCall, lookupCall]

lemma getCall_removeCall_self (m : Manager) (callID : String) :
    (m.removeCall callID).getCall callID = none :=
  lookupCall_filter_self m.calls callID

lemma filter_key_idem (l : List (String × CallState)) (callID : String) :
    ((l.filter (keyNe callID)).filter (keyNe callID)) = l.filter (keyNe callID) := by
  induction l with
  | nil => rfl
  | cons p rest ih =>
    by_cases hk : p.1 = callID
    · rw [List.filter_cons, keyNe_false callID p hk, if_neg (by simp), ih]
    · rw [List.filter_cons, keyNe_true callID p hk, if_pos rfl,
        List.filter_cons, keyNe_true callID p hk, if_pos rfl, ih]

/-! Helper lemmas about decimal rendering and call-id uniqueness. -/

lemma digitChar_ne_dash (d : Nat) : digitChar d ≠ Char.ofNat 45 := by
  unfold digitChar
  repeat' split
  all_goals decide

lemma dash_not_mem_natDecCharsAux (fuel : Nat) :
    ∀ n, Char.ofNat 45 ∉ natDecCharsAux fuel n := by
  induction fuel with
  | zero =>
    intro n
    simp only [natDecCharsAux, List.mem_singleton]
    exact fun h => digitChar_ne_dash n h.symm
  | succ fuel ih =>
    intro n
    by_cases h : n < 10
    · simp only [natDecCharsAux, if_pos h, List.mem_singleton]
      exact fun hc => digitChar_ne_dash n hc.symm
    · simp only [natDecCharsAux, if_neg h, List.mem_append, List.mem_singleton]
      rintro (hc | hc)
      · exact ih _ hc
      · exact digitChar_ne_dash _ hc.symm

lemma dash_not_mem_natDecChars (n : Nat) : Char.ofNat 45 ∉ natDecChars n :=
  dash_not_mem_natDecCharsAux n n

lemma toNat_digitChar (d : Nat) (h : d < 10) : (digitChar d).toNat = 48 + d := by
  interval_cases d <;> decide

lemma decVal_append_digit (l : List Char) (c : Char) :
    decVal (l ++ [c]) = decVal l * 10 + (c.toNat - 48) := by
  simp [decVal, List.foldl_append]

lemma decVal_natDecCharsAux (fuel : Nat) :
    ∀ n, n ≤ fuel → decVal (natDecCharsAux fuel n) = n := by
  induction fuel with
  | zero =>
    intro n hn
    have hz : n = 0 := Nat.le_zero.mp hn
    subst hz
    decide
  | succ fuel ih =>
    intro n hn
    by_cases h : n < 10
    · simp only [natDecCharsAux, if_pos h]
      simp [decVal, toNat_digitChar n h]
    · simp only [natDecCharsAux, if_neg h]
      rw [decVal_append_digit]
      have hdiv : n / 10 ≤ fuel := by
        have : n / 10 < n := Nat.div_lt_self (by omega) (by omega)
        omega
      rw [ih (n / 10) hdiv, toNat_digitChar (n % 10) (Nat.mod_lt n (by omega))]
      omega

lemma natDecChars_inj {a b : Nat} (h : natDecChars a = natDecChars b) : a = b := by
  have ha := decVal_natDecCharsAux a a (Nat.le_refl a)
  have hb := decVal_natDecCharsAux b b (Nat.le_refl b)
  unfold natDecChars at h
  rw [← ha, ← hb, h]

lemma append_dash_inj :
    ∀ (l1 l2 r1 r2 : List Char), Char.ofNat 45 ∉ l1 → Char.ofNat 45 ∉ l2 →
      l1 ++ Char.ofNat 45 :: r1 = l2 ++ Char.ofNat 45 :: r2 → l1 = l2 := by
  intro l1
  induction l1 with
  | nil =>
    intro l2 r1 r2 _ h2 h
    cases l2 with
    | nil => rfl
    | cons c t =>
      exfalso
      simp only [List.nil_append, List.cons_append, List.cons.injEq] at h
      exact h2 (h.1 ▸ List.mem_cons_self c t)
  | cons c t ih =>
    intro l2 r1 r2 h1 h2 h
    cases l2 with
    | nil =>
      exfalso
      simp only [List.nil_append, List.cons_append, List.cons.injEq] at h
      exact h1 (h.1 ▸ List.mem_cons_self c t)
    | cons c2 t2 =>
      simp only [List.cons_append, List.cons.injEq] at h
      obtain ⟨hc, ht⟩ := h
      have h1t : Char.ofNat 45 ∉ t := fun hm => h1 (List.mem_cons_of_mem c hm)
      have h2t : Char.ofNat 45 ∉ t2 := fun hm => h2 (List.mem_cons_of_mem c2 hm)
      rw [hc, ih t2 r1 r2 h1t h2t ht]

lemma mkCallID_inj_counter {c1 t1 c2 t2 : Nat}
    (h : mkCallID c1 t1 = mkCallID c2 t2) : c1 = c2 := by
  unfold mkCallID at h
  have hl := congrArg String.data h
  simp only [List.cons_append, List.nil_append, List.cons.injEq, true_and] at hl
  exact natDecChars_inj
    (append_dash_inj _ _ _ _ (dash_not_mem_natDecChars c1) (dash_not_mem_natDecChars c2) hl)

lemma genIDs_mem :
    ∀ (ts : List Nat) (m : Manager) (s : String), s ∈ m.genIDs ts →
      ∃ c t, s = mkCallID c t ∧ m.callCounter < c := by
  intro ts
  induction ts with
  | nil => intro m s h; simp [Manager.genIDs] at h
  | cons t rest ih =>
    intro m s h
    simp only [Manager.genIDs, List.mem_cons] at h
    rcases h with h | h
    · exact ⟨m.callCounter + 1, t, h, by omega⟩
    · obtain ⟨c, t2, hs, hc⟩ := ih _ _ h
      refine ⟨c, t2, hs, ?_⟩
      simp only [Manager.generateCallID] at hc
      omega

lemma genIDs_nodup : ∀ (ts : List Nat) (m : Manager), (m.genIDs ts).Nodup := by
  intro ts
  induction ts with
  | nil => intro m; simp [Manager.genIDs]
  | cons t rest ih =>
    intro m
    simp only [Manager.genIDs, List.nodup_cons]
    refine ⟨fun hmem => ?_, ih _⟩
    obtain ⟨c, t2, hs, hc⟩ := genIDs_mem rest _ _ hmem
    simp only [Manager.generateCallID] at hs hc
    have := mkCallID_inj_counter hs
    omega

/-! Helper lemma about the listen event loop. -/

lemma listenLoop_none_spec :
    ∀ (evs : List SttEvent) (ending : ListenEnd) (now : Nat) (st : CallState)
      (tr : String) (st2 : CallState) (t : String),
      listenLoop now st tr evs ending = (st2, t, none) →
      (t ≠ "" ∧ st2 = st.addTurn "user" t now) ∨ (t = "" ∧ st2 = st) := by
  intro evs
  induction evs with
  | nil =>
    intro ending now st tr st2 t h
    cases ending with
    | streamClosed =>
      simp only [listenLoop, resolveCandidate] at h
      by_cases htr : tr ≠ ""
      · rw [if_pos htr] at h
        simp only [Prod.mk.injEq] at h
        obtain ⟨h1, h2, -⟩ := h
        subst h2
        exact Or.inl ⟨htr, h1.symm⟩
      · rw [if_neg htr] at h
        simp only [Prod.mk.injEq] at h
        obtain ⟨h1, h2, -⟩ := h
        subst h2
        push_neg at htr
        exact Or.inr ⟨htr, h1.symm⟩
    | timeout =>
      simp only [listenLoop, resolveCandidate] at h
      by_cases htr : tr ≠ ""
      · rw [if_pos htr] at h
        simp only [Prod.mk.injEq] at h
        obtain ⟨h1, h2, -⟩ := h
        subst h2
        exact Or.inl ⟨htr, h1.symm⟩
      · rw [if_neg htr] at h
        simp only [Prod.mk.injEq] at h
        obtain ⟨h1, h2, -⟩ := h
        subst h2
        push_neg at htr
        exact Or.inr ⟨htr, h1.symm⟩
    | ctxDone e => simp [listenLoop] at h
  | cons ev rest ih =>
    intro ending now st tr st2 t h
    simp only [listenLoop] at h
    cases hE : ev.eventError with
    | some e => rw [hE] at h; simp at h
    | none =>
      rw [hE] at h
      by_cases hf : ev.isFinal = true ∧ ev.transcript ≠ ""
      · rw [if_pos hf] at h
        simp only [Prod.mk.injEq] at h
        obtain ⟨h1, h2, -⟩ := h
        subst h2
        exact Or.inl ⟨hf.2, h1.symm⟩
      · rw [if_neg hf] at h
        exact ih _ _ _ _ _ _ h

/-! Claim theorems. -/

/-- Claim C3: `speak` appends the assistant-authored turn to the session
log before any interaction with the transport or the synthesis backend, so
whatever the outcome (success, missing transport, synthesis failure or a
mid-stream delivery error), the resulting log is the old log extended with
exactly that turn, and the last turn is the assistant turn carrying the
message. -/
theorem speak_records_turn_first (st : CallState) (message : String) (now : Nat)
    (env : SpeakEnv) :
    (speak st message now env).1.conversation
      = st.conversation ++ [⟨"assistant", message, now⟩]
    ∧ (speak st message now env).1.conversation.getLast?
      = some ⟨"assistant", message, now⟩ := by
  have h1 : (speak st message now env).1 = st.addTurn "assistant" message now := by
    unfold speak
    obtain ⟨tv, se, ch, we⟩ := env
    cases tv <;> cases se <;> simp
  refine ⟨by rw [h1]; rfl, ?_⟩
  rw [h1]
  show (st.conversation ++ [_]).getLast? = _
  simp

/-- Claim C7: `AddTurn` appends exactly one turn with the given role and
text (existing turns unchanged, order preserved, so for any sequence of
appends turn order equals call order), sets `LastUserMessage` to the text
exactly when the role is user, leaves the other fields unchanged, and is a
total function with no error outcome. -/
theorem addTurn_appends (cs : CallState) (role content : String) (now : Nat) :
    (cs.addTurn role content now).conversation
      = cs.conversation ++ [⟨role, content, now⟩]
    ∧ (cs.addTurn role content now).lastUserMessage
      = (if role = "user" then content else cs.lastUserMessage)
    ∧ (cs.addTurn role content now).id = cs.id
    ∧ (cs.addTurn role content now).startTime = cs.startTime
    ∧ ∀ seq : List (String × String × Nat),
        (addTurns cs seq).conversation
          = cs.conversation ++ seq.map (fun x => ⟨x.1, x.2.1, x.2.2⟩) := by
  refine ⟨rfl, rfl, rfl, rfl, ?_⟩
  intro seq
  induction seq generalizing cs with
  | nil => simp [addTurns]
  | cons x rest ih =>
    obtain ⟨r, c, t⟩ := x
    simp [addTurns, ih, CallState.addTurn]

/-- Claim C9: before `Initialize` has run (`callSystem` nil), `InitiateCall`
fails at once with the not-initialized error, dials nothing, generates no
id and leaves the whole manager — registry and counter — untouched. -/
theorem initiateCall_not_initialized (m : Manager) (message : String)
    (env : InitiateEnv) (h : m.initialized = false) :
    m.initiateCall message env
      = ⟨m, none, "", some "call manager not initialized; call Initialize() first", false⟩ := by
  unfold Manager.initiateCall
  rw [h]
  simp

/-- Witness for C9 at a concrete uninitialized manager. -/
theorem initiateCall_not_initialized_witness :
    Manager.initiateCall ⟨false, [], 0⟩ "hi"
        ⟨none, 0, 0, [], ⟨true, none, [], []⟩, ⟨true, none, [], .timeout⟩⟩
      = ⟨⟨false, [], 0⟩, none, "",
          some "call manager not initialized; call Initialize() first", false⟩ :=
  initiateCall_not_initialized ⟨false, [], 0⟩ "hi"
    ⟨none, 0, 0, [], ⟨true, none, [], []⟩, ⟨true, none, [], .timeout⟩⟩ rfl

/-- Claim C10: for a call id absent from the registry, `ContinueCall`,
`SpeakToUser` and `EndCall` each fail with the call-not-found error and
return the manager exactly as it was: registry mapping identical, no
session touched. -/
theorem unknownCall_noop (m : Manager) (callID message : String) (now : Nat)
    (senv : SpeakEnv) (lenv : ListenEnv) (eenv : EndEnv)
    (h : m.getCall callID = none) :
    m.continueCall callID message now senv lenv
      = (m, "", some ("call not found: " ++ callID))
    ∧ m.speakToUser callID message now senv
      = (m, some ("call not found: " ++ callID))
    ∧ m.endCall callID message eenv
      = (m, 0, some ("call not found: " ++ callID)) := by
  unfold Manager.continueCall Manager.speakToUser Manager.endCall
  simp [h]

/-- Witness for C10 at an empty registry. -/
theorem unknownCall_noop_witness :
    Manager.continueCall ⟨true, [], 0⟩ "nope" "hi" 0 ⟨true, none, [], []⟩
        ⟨true, none, [], .timeout⟩
      = (⟨true, [], 0⟩, "", some ("call not found: " ++ "nope"))
    ∧ Manager.speakToUser ⟨true, [], 0⟩ "nope" "hi" 0 ⟨true, none, [], []⟩
      = (⟨true, [], 0⟩, some ("call not found: " ++ "nope"))
    ∧ Manager.endCall ⟨true, [], 0⟩ "nope" "hi" ⟨⟨true, none, [], []⟩, 0, none⟩
      = (⟨true, [], 0⟩, 0, some ("call not found: " ++ "nope")) :=
  unknownCall_noop ⟨true, [], 0⟩ "nope" "hi" 0 ⟨true, none, [], []⟩
    ⟨true, none, [], .timeout⟩ ⟨⟨true, none, [], []⟩, 0, none⟩ rfl

/-- Claim C1 counterexample: a registered call whose hangup fails.  The
source returns the `HangupFailed` error before reaching `removeCall`, so
contrary to the claim the session is still present in the registry after
`EndCall` returns, and a subsequent lookup succeeds instead of failing with
call-not-found. -/
theorem endCall_hangupFail_retains :
    ((⟨true, [("c1", ⟨"c1", 0, [], ""⟩)], 1⟩ : Manager).endCall "c1" ""
        ⟨⟨true, none, [], []⟩, 5, some "boom"⟩).1.getCall "c1"
      = some ⟨"c1", 0, [], ""⟩
    ∧ ((⟨true, [("c1", ⟨"c1", 0, [], ""⟩)], 1⟩ : Manager).endCall "c1" ""
        ⟨⟨true, none, [], []⟩, 5, some "boom"⟩).2.2
      = some "failed to hangup: boom" :=
  ⟨rfl, rfl⟩

/-- Claim C1 as amended: `EndCall` on a registered session evicts it
exactly when the hangup succeeds; when hangup fails it returns the
hangup error and the session remains registered (with the best-effort
final-message turn applied when a message was given). -/
theorem endCall_evicts_iff_hangup_ok (m : Manager) (callID message : String)
    (env : EndEnv) (st : CallState) (h : m.getCall callID = some st) :
    (env.hangupError = none →
        (m.endCall callID message env).1.getCall callID = none
        ∧ (m.endCall callID message env).2.2 = none)
    ∧ (∀ e, env.hangupError = some e →
        (m.endCall callID message env).2.2 = some ("failed to hangup: " ++ e)
        ∧ (m.endCall callID message env).1.getCall callID
          = some (if message ≠ "" then (speak st message env.now env.speakEnv).1 else st)) := by
  unfold Manager.endCall
  simp only [h]
  constructor
  · intro hh
    simp only [hh]
    exact ⟨getCall_removeCall_self _ _, trivial⟩
  · intro e hh
    simp only [hh]
    exact ⟨trivial, getCall_storeCall_self _ _ _⟩

/-- Witness for the amended C1: successful hangup evicts. -/
theorem endCall_evicts_iff_hangup_ok_witness :
    ((⟨true, [("c1", ⟨"c1", 0, [], ""⟩)], 1⟩ : Manager).endCall "c1" ""
        ⟨⟨true, none, [], []⟩, 5, none⟩).1.getCall "c1" = none
    ∧ ((⟨true, [("c1", ⟨"c1", 0, [], ""⟩)], 1⟩ : Manager).endCall "c1" ""
        ⟨⟨true, none, [], []⟩, 5, none⟩).2.2 = none :=
  (endCall_evicts_iff_hangup_ok ⟨true, [("c1", ⟨"c1", 0, [], ""⟩)], 1⟩ "c1" ""
    ⟨⟨true, none, [], []⟩, 5, none⟩ ⟨"c1", 0, [], ""⟩ rfl).1 rfl

/-- Claim C2 counterexample: a final event whose transcript is empty.  The
source resolves only on `IsFinal && Transcript != ""`, so the final event
with empty transcript is ignored and the later stream close resolves to the
earlier candidate "hi" — not to the final event's (empty) transcript as the
claim states. -/
theorem listen_final_empty_not_resolving :
    (Manager.listen ⟨"c1", 0, [], ""⟩ 7
        ⟨true, none, [⟨none, "hi", false⟩, ⟨none, "", true⟩], .streamClosed⟩).2.1 = "hi"
    ∧ ¬ (Manager.listen ⟨"c1", 0, [], ""⟩ 7
        ⟨true, none, [⟨none, "hi", false⟩, ⟨none, "", true⟩], .streamClosed⟩).2.1 = "" := by
  exact ⟨rfl, by decide⟩

/-- Claim C2 as amended: an error-free event with the final flag and a
NON-EMPTY transcript immediately resolves the turn with its transcript; a
non-final event with non-empty transcript only updates the running
candidate; an event with empty transcript (final or not) changes nothing;
stream close and timeout both resolve to the last candidate (possibly
empty); and the concrete non-final sequence "may", "maybe later" followed
by stream close resolves to "maybe later". -/
theorem listen_resolution_rules :
    (∀ (now : Nat) (st : CallState) (t s : String) (rest : List SttEvent)
        (ending : ListenEnd), s ≠ "" →
        listenLoop now st t (⟨none, s, true⟩ :: rest) ending
          = (st.addTurn "user" s now, s, none))
    ∧ (∀ (now : Nat) (st : CallState) (t s : String) (rest : List SttEvent)
        (ending : ListenEnd), s ≠ "" →
        listenLoop now st t (⟨none, s, false⟩ :: rest) ending
          = listenLoop now st s rest ending)
    ∧ (∀ (now : Nat) (st : CallState) (t : String) (b : Bool)
        (rest : List SttEvent) (ending : ListenEnd),
        listenLoop now st t (⟨none, "", b⟩ :: rest) ending
          = listenLoop now st t rest ending)
    ∧ (∀ (now : Nat) (st : CallState) (t : String),
        listenLoop now st t [] .streamClosed = resolveCandidate now st t)
    ∧ (∀ (now : Nat) (st : CallState) (t : String),
        listenLoop now st t [] .timeout = resolveCandidate now st t)
    ∧ Manager.listen ⟨"c1", 0, [], ""⟩ 7
        ⟨true, none, [⟨none, "may", false⟩, ⟨none, "maybe later", false⟩], .streamClosed⟩
      = (CallState.addTurn ⟨"c1", 0, [], ""⟩ "user" "maybe later" 7, "maybe later", none) := by
  refine ⟨?_, ?_, ?_, fun _ _ _ => rfl, fun _ _ _ => rfl, rfl⟩
  · intro now st t s rest ending hs
    simp [listenLoop, hs]
  · intro now st t s rest ending hs
    simp [listenLoop, hs]
  · intro now st t b rest ending
    simp [listenLoop]

/-- Witness for the amended C2: a final "yes" resolves at once; a non-final
"maybe" only updates the candidate. -/
theorem listen_resolution_rules_witness :
    listenLoop 3 ⟨"c1", 0, [], ""⟩ "x" [⟨none, "yes", true⟩] .timeout
      = (CallState.addTurn ⟨"c1", 0, [], ""⟩ "user" "yes" 3, "yes", none)
    ∧ listenLoop 3 ⟨"c1", 0, [], ""⟩ "x" [⟨none, "maybe", false⟩] .timeout
      = listenLoop 3 ⟨"c1", 0, [], ""⟩ "maybe" [] .timeout :=
  ⟨listen_resolution_rules.1 3 ⟨"c1", 0, [], ""⟩ "x" "yes" [] .timeout (by decide),
   listen_resolution_rules.2.1 3 ⟨"c1", 0, [], ""⟩ "x" "maybe" [] .timeout (by decide)⟩

/-- Claim C6: whenever `listen` resolves without error — exactly the
final-event, stream-close and timeout exits — the returned session equals
the input session extended by a user turn carrying the resolved text when
that text is non-empty, and is the unchanged input session when the
resolved text is empty. -/
theorem listen_appends_user_turn_iff_nonempty (st : CallState) (now : Nat)
    (env : ListenEnv) (st2 : CallState) (t : String)
    (h : Manager.listen st now env = (st2, t, none)) :
    (t ≠ "" → st2 = st.addTurn "user" t now) ∧ (t = "" → st2 = st) := by
  unfold Manager.listen at h
  by_cases htv : env.transportAvailable = false
  · rw [if_pos htv] at h
    simp at h
  · rw [if_neg htv] at h
    cases hse : env.startError with
    | some e => rw [hse] at h; simp at h
    | none =>
      rw [hse] at h
      rcases listenLoop_none_spec env.events env.ending now st "" st2 t h with
        ⟨hne, hst⟩ | ⟨heq, hst⟩
      · exact ⟨fun _ => hst, fun hc => absurd hc hne⟩
      · exact ⟨fun hc => absurd heq hc, fun _ => hst⟩

/-- Witness for C6: a final event "yes" appends the user turn. -/
theorem listen_appends_user_turn_iff_nonempty_witness :
    (("yes" : String) ≠ "" →
        CallState.addTurn ⟨"c1", 0, [], ""⟩ "user" "yes" 1
          = CallState.addTurn ⟨"c1", 0, [], ""⟩ "user" "yes" 1)
    ∧ (("yes" : String) = "" →
        CallState.addTurn ⟨"c1", 0, [], ""⟩ "user" "yes" 1 = ⟨"c1", 0, [], ""⟩) :=
  listen_appends_user_turn_iff_nonempty ⟨"c1", 0, [], ""⟩ 1
    ⟨true, none, [⟨none, "yes", true⟩], .timeout⟩
    (CallState.addTurn ⟨"c1", 0, [], ""⟩ "user" "yes" 1) "yes" rfl

lemma removeCall_storeCall_calls (m : Manager) (callID : String) (st : CallState) :
    ((m.storeCall callID st).removeCall callID).calls = m.calls.filter (keyNe callID) := by
  show List.filter (keyNe callID) ((callID, st) :: List.filter (keyNe callID) m.calls)
      = List.filter (keyNe callID) m.calls
  rw [List.filter_cons, keyNe_false callID (callID, st) rfl, if_neg (by simp),
    filter_key_idem]

lemma initiateCall_eq_nonAnswer (m : Manager) (message : String) (env : InitiateEnv)
    (hinit : m.initialized = true) (hmk : env.makeCallError = none)
    (hans : waitForAnswer env.answerObs = false) :
    m.initiateCall message env
      = ⟨(({ m with callCounter := m.callCounter + 1 } : Manager).storeCall
            (mkCallID (m.callCounter + 1) env.nowUnix)
            ⟨mkCallID (m.callCounter + 1) env.nowUnix, env.now, [], ""⟩).removeCall
            (mkCallID (m.callCounter + 1) env.nowUnix),
          none, "", some "call not answered", true⟩ := by
  unfold Manager.initiateCall Manager.generateCallID
  rw [hinit, hmk, hans]
  rfl

/-- Claim C4: when the dialed call never reaches Answered within the
bounded wait (terminal status, deadline, or context cancellation — all the
ways `waitForAnswer` yields false), `InitiateCall` hangs up best-effort,
evicts the session, and fails with the not-answered error; afterwards the
registry holds no session for the generated call id, and is exactly the
old registry (the generated id removed from it, a no-op when absent). -/
theorem initiateCall_nonAnswer_evicts (m : Manager) (message : String)
    (env : InitiateEnv) (hinit : m.initialized = true)
    (hmk : env.makeCallError = none)
    (hans : waitForAnswer env.answerObs = false) :
    (m.initiateCall message env).callError = some "call not answered"
    ∧ (m.initiateCall message env).hungUp = true
    ∧ (m.initiateCall message env).stOut = none
    ∧ (m.initiateCall message env).mgr.getCall
        (mkCallID (m.callCounter + 1) env.nowUnix) = none
    ∧ (m.initiateCall message env).mgr.calls
      = m.calls.filter (keyNe (mkCallID (m.callCounter + 1) env.nowUnix)) := by
  rw [initiateCall_eq_nonAnswer m message env hinit hmk hans]
  exact ⟨rfl, rfl, rfl, getCall_removeCall_self _ _, removeCall_storeCall_calls _ _ _⟩

/-- Witness for C4: an initialized manager, a dial that succeeds, and a
status that stays Ringing for the whole wait. -/
theorem initiateCall_nonAnswer_evicts_witness :
    (Manager.initiateCall ⟨true, [], 0⟩ "hi"
        ⟨none, 40, 5, [(false, .ringing), (false, .ringing)],
          ⟨true, none, [], []⟩, ⟨true, none, [], .timeout⟩⟩).callError
      = some "call not answered"
    ∧ (Manager.initiateCall ⟨true, [], 0⟩ "hi"
        ⟨none, 40, 5, [(false, .ringing), (false, .ringing)],
          ⟨true, none, [], []⟩, ⟨true, none, [], .timeout⟩⟩).hungUp = true
    ∧ (Manager.initiateCall ⟨true, [], 0⟩ "hi"
        ⟨none, 40, 5, [(false, .ringing), (false, .ringing)],
          ⟨true, none, [], []⟩, ⟨true, none, [], .timeout⟩⟩).stOut = none
    ∧ (Manager.initiateCall ⟨true, [], 0⟩ "hi"
        ⟨none, 40, 5, [(false, .ringing), (false, .ringing)],
          ⟨true, none, [], []⟩, ⟨true, none, [], .timeout⟩⟩).mgr.getCall
        (mkCallID (0 + 1) 40) = none
    ∧ (Manager.initiateCall ⟨true, [], 0⟩ "hi"
        ⟨none, 40, 5, [(false, .ringing), (false, .ringing)],
          ⟨true, none, [], []⟩, ⟨true, none, [], .timeout⟩⟩).mgr.calls
      = List.filter (keyNe (mkCallID (0 + 1) 40)) [] :=
  initiateCall_nonAnswer_evicts ⟨true, [], 0⟩ "hi"
    ⟨none, 40, 5, [(false, .ringing), (false, .ringing)],
      ⟨true, none, [], []⟩, ⟨true, none, [], .timeout⟩⟩ rfl rfl (by decide)

lemma initiateCall_eq_answered (m : Manager) (message : String) (env : InitiateEnv)
    (hinit : m.initialized = true) (hmk : env.makeCallError = none)
    (hans : waitForAnswer env.answerObs = true) :
    m.initiateCall message env
      = (match speakAndListen ⟨mkCallID (m.callCounter + 1) env.nowUnix, env.now, [], ""⟩
            message env.now env.speakEnv env.listenEnv with
        | (st1, _, some e) =>
          ⟨(({ m with callCounter := m.callCounter + 1 } : Manager).storeCall
              (mkCallID (m.callCounter + 1) env.nowUnix)
              ⟨mkCallID (m.callCounter + 1) env.nowUnix, env.now, [], ""⟩).storeCall
              (mkCallID (m.callCounter + 1) env.nowUnix) st1,
            some st1, "", some ("failed to speak: " ++ e), false⟩
        | (st1, response, none) =>
          ⟨(({ m with callCounter := m.callCounter + 1 } : Manager).storeCall
              (mkCallID (m.callCounter + 1) env.nowUnix)
              ⟨mkCallID (m.callCounter + 1) env.nowUnix, env.now, [], ""⟩).storeCall
              (mkCallID (m.callCounter + 1) env.nowUnix) st1,
            some st1, response, none, false⟩) := by
  unfold Manager.initiateCall Manager.generateCallID
  rw [hinit, hmk, hans]
  rfl

/-- Claim C5: when the call is answered but the speak-and-listen phase
fails, `InitiateCall` surfaces the wrapped error while the session stays
registered under the generated call id (and is handed back to the caller),
so the live call remains addressable. -/
theorem initiateCall_speakFail_keeps_session (m : Manager) (message : String)
    (env : InitiateEnv) (st1 : CallState) (resp : String) (e : String)
    (hinit : m.initialized = true) (hmk : env.makeCallError = none)
    (hans : waitForAnswer env.answerObs = true)
    (hsl : speakAndListen ⟨mkCallID (m.callCounter + 1) env.nowUnix, env.now, [], ""⟩
        message env.now env.speakEnv env.listenEnv = (st1, resp, some e)) :
    (m.initiateCall message env).callError = some ("failed to speak: " ++ e)
    ∧ (m.initiateCall message env).stOut = some st1
    ∧ (m.initiateCall message env).mgr.getCall
        (mkCallID (m.callCounter + 1) env.nowUnix) = some st1 := by
  rw [initiateCall_eq_answered m message env hinit hmk hans, hsl]
  exact ⟨rfl, rfl, getCall_storeCall_self _ _ _⟩

/-- Witness for C5: answered after one poll, then speak fails because the
transport is unavailable. -/
theorem initiateCall_speakFail_keeps_session_witness :
    (Manager.initiateCall ⟨true, [], 0⟩ "hi"
        ⟨none, 40, 5, [(false, .answered)],
          ⟨false, none, [], []⟩, ⟨true, none, [], .timeout⟩⟩).callError
      = some ("failed to speak: " ++ "no transport connection available")
    ∧ (Manager.initiateCall ⟨true, [], 0⟩ "hi"
        ⟨none, 40, 5, [(false, .answered)],
          ⟨false, none, [], []⟩, ⟨true, none, [], .timeout⟩⟩).stOut
      = some (CallState.addTurn ⟨mkCallID (0 + 1) 40, 5, [], ""⟩ "assistant" "hi" 5)
    ∧ (Manager.initiateCall ⟨true, [], 0⟩ "hi"
        ⟨none, 40, 5, [(false, .answered)],
          ⟨false, none, [], []⟩, ⟨true, none, [], .timeout⟩⟩).mgr.getCall
        (mkCallID (0 + 1) 40)
      = some (CallState.addTurn ⟨mkCallID (0 + 1) 40, 5, [], ""⟩ "assistant" "hi" 5) :=
  initiateCall_speakFail_keeps_session ⟨true, [], 0⟩ "hi"
    ⟨none, 40, 5, [(false, .answered)], ⟨false, none, [], []⟩, ⟨true, none, [], .timeout⟩⟩
    (CallState.addTurn ⟨mkCallID (0 + 1) 40, 5, [], ""⟩ "assistant" "hi" 5) ""
    "no transport connection available" rfl rfl (by decide) rfl

/-- Claim C8: each `generateCallID` invocation strictly increments the
per-process counter and formats it with the coarse timestamp, so the ids of
any sequence of invocations within one process lifetime are pairwise
distinct. -/
theorem generateCallID_unique (m : Manager) (ts : List Nat) :
    (∀ t, ((m.generateCallID t).1).callCounter = m.callCounter + 1)
    ∧ (m.genIDs ts).Nodup :=
  ⟨fun _ => rfl, genIDs_nodup ts m⟩
